import Mathlib

/-
  Verification of the camera-aligner repository:
  a shallow embedding of src/linear-algebra.js and the calibration pipeline
  (getVanishingPoints, getFocalLength, calculate, getEulerRotation, ...),
  together with theorems settling the specified claims.

  JavaScript numbers are modelled by `JSNum α`: an exact value (`num`),
  a signed infinity (`inf`), or `nan`.  Rounding and negative zero are not
  modelled; arithmetic on `num` values is exact field arithmetic, and the
  IEEE special-value rules (NaN propagation, signed infinities, 1/0 = ∞,
  0·∞ = NaN, √(negative) = NaN) are modelled exactly.
-/

namespace CamAlign

/-- Model of a JavaScript number: NaN, a signed infinity (`inf true` = +∞,
`inf false` = −∞), or an exact finite value. -/
inductive JSNum (α : Type) where
  | nan : JSNum α
  | inf : Bool → JSNum α
  | num : α → JSNum α
deriving DecidableEq

namespace JSNum

variable {α : Type} [LinearOrderedField α]

/-- JS addition with IEEE special-value rules. -/
def add : JSNum α → JSNum α → JSNum α
  | nan, _ => nan
  | _, nan => nan
  | inf s, inf t => if s = t then inf s else nan
  | inf s, num _ => inf s
  | num _, inf t => inf t
  | num x, num y => num (x + y)

/-- JS negation. -/
def neg : JSNum α → JSNum α
  | nan => nan
  | inf s => inf (!s)
  | num x => num (-x)

/-- JS multiplication with IEEE special-value rules (0·∞ = NaN). -/
def mul : JSNum α → JSNum α → JSNum α
  | nan, _ => nan
  | _, nan => nan
  | inf s, inf t => inf (s == t)
  | inf s, num x => if x = 0 then nan else if 0 < x then inf s else inf (!s)
  | num x, inf s => if x = 0 then nan else if 0 < x then inf s else inf (!s)
  | num x, num y => num (x * y)

/-- JS division with IEEE special-value rules (x/0 = ±∞ for x ≠ 0, 0/0 = NaN,
x/∞ = 0, ∞/∞ = NaN).  Negative zero is not modelled (0 counts as +0). -/
def div : JSNum α → JSNum α → JSNum α
  | nan, _ => nan
  | _, nan => nan
  | inf _, inf _ => nan
  | inf s, num y => if y = 0 then inf s else if 0 < y then inf s else inf (!s)
  | num _, inf _ => num 0
  | num x, num y =>
      if y = 0 then (if x = 0 then nan else if 0 < x then inf true else inf false)
      else num (x / y)

instance : Add (JSNum α) := ⟨add⟩
instance : Neg (JSNum α) := ⟨neg⟩
instance : Mul (JSNum α) := ⟨mul⟩
instance : Div (JSNum α) := ⟨div⟩
instance : Zero (JSNum α) := ⟨num 0⟩
instance : One (JSNum α) := ⟨num 1⟩

/-- JS subtraction; `x - y` behaves as `x + (-y)` in IEEE arithmetic. -/
def sub (a b : JSNum α) : JSNum α := add a (neg b)

instance : Sub (JSNum α) := ⟨sub⟩

/-- JS array holes and `undefined` behave as NaN in arithmetic. -/
instance : Inhabited (JSNum α) := ⟨nan⟩

/-- `Math.sqrt`: NaN for negative inputs and for −∞ and NaN; the underlying
exact square root on nonnegative finite values is a parameter. -/
def sqrt (rt : α → α) : JSNum α → JSNum α
  | nan => nan
  | inf b => if b then inf true else nan
  | num x => if x < 0 then nan else num (rt x)

/-- JS truthiness of a number: false exactly for 0 and NaN. -/
def truthy : JSNum α → Bool
  | nan => false
  | inf _ => true
  | num x => decide (x ≠ 0)

/-- The `=== 0` test used by the elimination code (NaN === 0 and ±∞ === 0 are
both false). -/
def eqZero : JSNum α → Bool
  | num x => decide (x = 0)
  | _ => false

@[simp] lemma num_add_num (x y : α) : (num x) + (num y) = num (x + y) := rfl

@[simp] lemma inf_add_inf (s t : Bool) :
    (inf s : JSNum α) + inf t = if s = t then inf s else nan := rfl

@[simp] lemma inf_add_num (s : Bool) (x : α) : (inf s : JSNum α) + num x = inf s := rfl

@[simp] lemma num_add_inf (x : α) (t : Bool) : (num x : JSNum α) + inf t = inf t := rfl

@[simp] lemma inf_mul_inf (s t : Bool) : (inf s : JSNum α) * inf t = inf (s == t) := rfl

@[simp] lemma inf_mul_num (s : Bool) (x : α) :
    (inf s : JSNum α) * num x =
      if x = 0 then nan else if 0 < x then inf s else inf (!s) := rfl

@[simp] lemma num_mul_inf (x : α) (s : Bool) :
    (num x : JSNum α) * inf s =
      if x = 0 then nan else if 0 < x then inf s else inf (!s) := rfl

@[simp] lemma nan_div (a : JSNum α) : (nan : JSNum α) / a = nan := by
  cases a <;> rfl

@[simp] lemma div_nan (a : JSNum α) : a / (nan : JSNum α) = nan := by
  cases a <;> rfl

@[simp] lemma inf_div_inf (s t : Bool) : (inf s : JSNum α) / inf t = nan := rfl

@[simp] lemma inf_div_num (s : Bool) (y : α) :
    (inf s : JSNum α) / num y =
      if y = 0 then inf s else if 0 < y then inf s else inf (!s) := rfl

@[simp] lemma num_div_inf (x : α) (s : Bool) : (num x : JSNum α) / inf s = num 0 := rfl

@[simp] lemma neg_nan : -(nan : JSNum α) = nan := rfl

@[simp] lemma neg_inf (s : Bool) : -(inf s : JSNum α) = inf (!s) := rfl

@[simp] lemma nan_sub (a : JSNum α) : (nan : JSNum α) - a = nan := by
  cases a <;> rfl

@[simp] lemma sub_nan (a : JSNum α) : a - (nan : JSNum α) = nan := by
  cases a <;> rfl

@[simp] lemma num_sub_inf (x : α) (s : Bool) : (num x : JSNum α) - inf s = inf (!s) := rfl

@[simp] lemma inf_sub_num (s : Bool) (x : α) : (inf s : JSNum α) - num x = inf s := rfl

@[simp] lemma inf_sub_inf (s t : Bool) :
    (inf s : JSNum α) - inf t = if s = !t then inf s else nan := rfl

@[simp] lemma sqrt_inf (rt : α → α) (b : Bool) :
    sqrt rt (inf b : JSNum α) = if b then inf true else nan := rfl

@[simp] lemma truthy_inf (s : Bool) : (inf s : JSNum α).truthy = true := rfl

@[simp] lemma eqZero_nan : (nan : JSNum α).eqZero = false := rfl

@[simp] lemma eqZero_inf (s : Bool) : (inf s : JSNum α).eqZero = false := rfl

@[simp] lemma nan_add (a : JSNum α) : (nan : JSNum α) + a = nan := by
  cases a <;> rfl

@[simp] lemma add_nan (a : JSNum α) : a + (nan : JSNum α) = nan := by
  cases a <;> rfl

@[simp] lemma num_mul_num (x y : α) : (num x) * (num y) = num (x * y) := rfl

@[simp] lemma nan_mul (a : JSNum α) : (nan : JSNum α) * a = nan := by
  cases a <;> rfl

@[simp] lemma mul_nan (a : JSNum α) : a * (nan : JSNum α) = nan := by
  cases a <;> rfl

@[simp] lemma num_sub_num (x y : α) : (num x) - (num y) = num (x - y) := by
  show sub _ _ = _
  simp [sub, neg, add, sub_eq_add_neg]

@[simp] lemma neg_num (x : α) : -(num x) = num (-x) := rfl

@[simp] lemma num_div_num (x y : α) :
    (num x) / (num y) =
      if y = 0 then (if x = 0 then nan else if 0 < x then inf true else inf false)
      else num (x / y) := rfl

@[simp] lemma sqrt_num (rt : α → α) (x : α) :
    sqrt rt (num x) = if x < 0 then nan else num (rt x) := rfl

@[simp] lemma sqrt_nan (rt : α → α) : sqrt rt (nan : JSNum α) = nan := rfl

@[simp] lemma truthy_num (x : α) : (num x).truthy = decide (x ≠ 0) := rfl

@[simp] lemma truthy_nan : (nan : JSNum α).truthy = false := rfl

@[simp] lemma eqZero_num (x : α) : (num x).eqZero = decide (x = 0) := rfl

@[simp] lemma zero_def : (0 : JSNum α) = num 0 := rfl

@[simp] lemma one_def : (1 : JSNum α) = num 1 := rfl

omit [LinearOrderedField α] in
lemma nan_ne_num (x : α) : (nan : JSNum α) ≠ num x := by
  intro h
  cases h

omit [LinearOrderedField α] in
@[simp] lemma num_eq_nan_iff (x : α) : ((num x : JSNum α) = nan) ↔ False := by
  constructor <;> intro h
  · cases h
  · cases h

omit [LinearOrderedField α] in
@[simp] lemma nan_eq_num_iff (x : α) : ((nan : JSNum α) = num x) ↔ False := by
  constructor <;> intro h
  · cases h
  · cases h

omit [LinearOrderedField α] in
@[simp] lemma inf_eq_nan_iff (s : Bool) : ((inf s : JSNum α) = nan) ↔ False := by
  constructor <;> intro h
  · cases h
  · cases h

end JSNum

/-- `class Matrix` of src/linear-algebra.js: holds an array of row arrays. -/
structure Matrix (α : Type) where
  matrix : List (List α)
deriving DecidableEq

namespace Matrix

variable {α : Type}

/-- Height `m` of the matrix (`get m()`). -/
def m (mat : Matrix α) : ℕ := mat.matrix.length

/-- Width `n` of the matrix (`get n()`, i.e. `this.matrix[0].length`). -/
def n (mat : Matrix α) : ℕ := (mat.matrix.headD []).length

/-- Entry read `this.matrix[i][j]`; an out-of-range read yields `default`
(which is NaN for `JSNum`, matching JS `undefined` in arithmetic). -/
def entry [Inhabited α] (mat : Matrix α) (i j : ℕ) : α :=
  (mat.matrix.getD i []).getD j default

/-- `Matrix.fromSize(width, height, value)`. -/
def fromSize (width height : ℕ) (value : α) : Matrix α :=
  ⟨List.replicate height (List.replicate width value)⟩

/-- The single assignment `m.matrix[i][j] = v`. -/
def setEntry (mat : Matrix α) (i j : ℕ) (v : α) : Matrix α :=
  ⟨mat.matrix.set i ((mat.matrix.getD i []).set j v)⟩

/-- `Matrix.identity(size)`: a zero matrix with the diagonal set to 1 by the
loop `for i: m.matrix[i][i] = 1`. -/
def identity [Zero α] [One α] (size : ℕ) : Matrix α :=
  (List.range size).foldl (fun mat i => mat.setEntry i i 1) (fromSize size size 0)

/-- `get transpose()`. -/
def transpose [Inhabited α] (mat : Matrix α) : Matrix α :=
  ⟨(List.range mat.n).map (fun y => (List.range mat.m).map (fun x => mat.entry x y))⟩

/-- `transformVector(vector)`: starts from a zero result of length `m` and
accumulates `result[i] += this.matrix[i][j] * vector[j]` for
`j < min(vector.length, this.n)`, exactly in JS evaluation order. -/
def transformVector [Inhabited α] [Zero α] [Add α] [Mul α]
    (mat : Matrix α) (v : List α) : List α :=
  (List.range mat.m).map (fun i =>
    (List.range (min v.length mat.n)).foldl
      (fun acc j => acc + mat.entry i j * v.getD j default) 0)

/-- A JS array built by `new Array(n)` followed by writes at indices
`0 .. m-1`: its length is `max n m` and the untouched slots are holes
(`undefined`), represented by `default` (NaN for `JSNum`). -/
def jsArrayWrite [Inhabited α] (len writes : ℕ) (f : ℕ → α) : List α :=
  (List.range (max len writes)).map (fun j => if j < writes then f j else default)

/-- `Matrix.multiplication(matrix1, matrix2)`: for each result column `i` the
code copies `matrix2.matrix[j][i]` for `j < matrix1.matrix.length` into a
`new Array(n)`, transforms it by `matrix1`, and writes the transformed vector
into column `i`.  Note the copy loop is bounded by the **left** matrix's
height, not the right matrix's height, exactly as in the source. -/
def multiplication [Inhabited α] [Zero α] [Add α] [Mul α]
    (matrix1 matrix2 : Matrix α) : Matrix α :=
  let hm := matrix1.matrix.length
  let hn := (matrix2.matrix.headD []).length
  ⟨(List.range hm).map (fun j =>
    (List.range hn).map (fun i =>
      (matrix1.transformVector
        (jsArrayWrite hn hm (fun k => matrix2.entry k i))).getD j default))⟩

/-- `Matrix.rotation3D(axis, radians)`: the sine and cosine functions are
passed explicitly (instantiated with `Real.sin`/`Real.cos` in the theorems);
the five assignments follow the source order. -/
def rotation3D [Zero α] [One α] [Neg α]
    (sin' cos' : α → α) (axis : ℕ) (radians : α) : Matrix α :=
  let s := sin' radians
  let c := cos' radians
  (((((fromSize 3 3 0).setEntry axis axis 1).setEntry
      ((axis + 1) % 3) ((axis + 1) % 3) c).setEntry
      ((axis + 2) % 3) ((axis + 2) % 3) c).setEntry
      ((axis + 2) % 3) ((axis + 1) % 3) s).setEntry
      ((axis + 1) % 3) ((axis + 2) % 3) (-s)

/-- `multiplyRow(row, scalar)`. -/
def multiplyRow [Mul α] (mat : Matrix α) (row : ℕ) (scalar : α) : Matrix α :=
  ⟨mat.matrix.set row ((mat.matrix.getD row []).map (fun x => x * scalar))⟩

/-- `multiplyAndAdd(from, to, scalar)`:
`this.matrix[to] = this.matrix[from].map((val, i) => val * scalar + this.matrix[to][i])`. -/
def multiplyAndAdd [Inhabited α] [Mul α] [Add α]
    (mat : Matrix α) (src dst : ℕ) (scalar : α) : Matrix α :=
  ⟨mat.matrix.set dst
    ((mat.matrix.getD src []).mapIdx
      (fun i val => val * scalar + (mat.matrix.getD dst []).getD i default))⟩

/-- `swap(rowIndex1, rowIndex2)` (elementwise in the source; the net effect on
the well-formed matrices it is applied to is exchanging the two rows). -/
def swap (mat : Matrix α) (r1 r2 : ℕ) : Matrix α :=
  let row1 := mat.matrix.getD r1 []
  let row2 := mat.matrix.getD r2 []
  ⟨(mat.matrix.set r1 row2).set r2 row1⟩

/-- `get inverse()`: Gauss-Jordan elimination over JS numbers.  Returns `none`
(null) only for non-square input.  The pivot search inspects the diagonal
entries `old.matrix[i][i]` below the current column — exactly as the source
does — and when no pivot is found the code divides by zero and keeps going. -/
def inverse {α : Type} [LinearOrderedField α]
    (mat : Matrix (JSNum α)) : Option (Matrix (JSNum α)) :=
  let cols := mat.n
  let rows := mat.m
  if cols ≠ rows then none else
  let start : Matrix (JSNum α) × Matrix (JSNum α) := (mat, identity cols)
  let forward := (List.range cols).foldl (fun p col =>
    let p :=
      if (p.1.entry col col).eqZero then
        match (List.range' col (cols - col)).find?
            (fun i => !(p.1.entry i i).eqZero) with
        | some i => (p.1.swap i col, p.2.swap i col)
        | none => p
      else p
    let value := p.1.entry col col
    let p := (p.1.multiplyRow col (1 / value), p.2.multiplyRow col (1 / value))
    (List.range' (col + 1) (rows - (col + 1))).foldl (fun q row =>
      let rowValue := q.1.entry row col
      (q.1.multiplyAndAdd col row (-rowValue),
       q.2.multiplyAndAdd col row (-rowValue))) p) start
  let backward := (List.range cols).reverse.foldl (fun p col =>
    (List.range col).reverse.foldl (fun q row =>
      let rowValue := q.1.entry row col
      (q.1.multiplyAndAdd col row (-rowValue),
       q.2.multiplyAndAdd col row (-rowValue))) p) forward
  some backward.2

end Matrix

namespace Vector

variable {α : Type} [LinearOrderedField α]

/-- `Vector.addition(vector1, vector2)`: iterates to the longer length and
replaces any term with `isNaN(term) = true` (NaN, or `undefined` from an
out-of-range read) by 0 before adding. -/
def addition (v1 v2 : List (JSNum α)) : List (JSNum α) :=
  (List.range (max v1.length v2.length)).map (fun i =>
    let t1 := v1.getD i JSNum.nan
    let t2 := v2.getD i JSNum.nan
    (if t1 = JSNum.nan then 0 else t1) + (if t2 = JSNum.nan then 0 else t2))

/-- `Vector.subtraction(vector1, vector2)`: same NaN-to-zero coercion. -/
def subtraction (v1 v2 : List (JSNum α)) : List (JSNum α) :=
  (List.range (max v1.length v2.length)).map (fun i =>
    let t1 := v1.getD i JSNum.nan
    let t2 := v2.getD i JSNum.nan
    (if t1 = JSNum.nan then 0 else t1) - (if t2 = JSNum.nan then 0 else t2))

/-- `Vector.scalarMultiplication(vector, scalar)`. -/
def scalarMultiplication (v : List (JSNum α)) (scalar : JSNum α) : List (JSNum α) :=
  v.map (fun x => x * scalar)

end Vector

/-- `class Corner` of the main script: an anchor plus two edge endpoints. -/
structure Corner (α : Type) where
  uvCenter : List α
  point1 : List α
  point2 : List α
deriving DecidableEq

/-- `pointFromIndex(index)`. -/
def Corner.pointFromIndex {α : Type} (c : Corner α) (index : ℕ) : List α :=
  if index = 0 then c.point1 else c.point2

/-- JS array read `a[i]` on a `JSNum` list: out of range gives `undefined`,
which behaves as NaN in arithmetic. -/
def jsGet {α : Type} (l : List (JSNum α)) (i : ℕ) : JSNum α :=
  l.getD i JSNum.nan

/-- `getVanishingPoints()`: for each family `i ∈ {0,1}` solves the 2×2 system
built from the corner geometry via `m.inverse.transformVector(v)` and returns
`o1 + c[0]·p1`.  The matrix is always 2×2 (square), so `inverse` never
returns null; the `getD` default is unreachable. -/
def getVanishingPoints {α : Type} [LinearOrderedField α]
    (c1 c2 : Corner (JSNum α)) : List (List (JSNum α)) :=
  (List.range 2).map (fun i =>
    let o1 := c1.uvCenter
    let o2 := c2.uvCenter
    let p1 := Vector.subtraction o1 (c1.pointFromIndex i)
    let p2 := Vector.subtraction o2 (c2.pointFromIndex i)
    let mtx : Matrix (JSNum α) :=
      ⟨[[jsGet p1 0, -(jsGet p2 0)],
        [jsGet p1 1, -(jsGet p2 1)]]⟩
    let v := [jsGet o2 0 - jsGet o1 0, jsGet o2 1 - jsGet o1 1]
    let c := (mtx.inverse.getD ⟨[]⟩).transformVector v
    Vector.addition o1 (Vector.scalarMultiplication p1 (jsGet c 0)))

/-- `getFocalLength()`:
`Math.sqrt(-v[0][0]*v[1][0] - v[0][1]*v[1][1]) / 2 * sensorLength`, with the
exact square root passed explicitly (instantiated with `Real.sqrt`). -/
def getFocalLength {α : Type} [LinearOrderedField α]
    (rt : α → α) (vps : List (List (JSNum α))) (sensorLength : JSNum α) : JSNum α :=
  JSNum.sqrt rt
      (-(jsGet (vps.getD 0 []) 0) * jsGet (vps.getD 1 []) 0 -
        jsGet (vps.getD 0 []) 1 * jsGet (vps.getD 1 []) 1)
    / JSNum.num 2 * sensorLength

/-- The guard of `calculate()` on line 305:
`if (calcResults.focalLength && axis1[1] !== axis2[1])`.  The branch body is
exactly what assigns `worldTransform`, `location` and `eulerRotation` and
reveals the results panel, so the full pose is included in the result iff this
guard is true.  Axis labels are the two-character strings such as "+x",
modelled as `List Char`; `axis1[1]` is `get? 1` (and JS
`undefined !== undefined` is false, matching `none ≠ none`). -/
def poseGate {α : Type} [LinearOrderedField α]
    (focalLength : JSNum α) (axis1 axis2 : List Char) : Bool :=
  focalLength.truthy && decide (axis1.get? 1 ≠ axis2.get? 1)

/-- The field-of-view computation of `calculate()` on line 303:
`2 * Math.atan(sensorLength / 2 / focalLength) / Math.PI * 180`, for a finite
real focal length; the arc tangent and π are passed explicitly (instantiated
with `Real.arctan` and `Real.pi`). -/
def fovValue {α : Type} [LinearOrderedField α]
    (atn : α → α) (pi' : α) (sensorLength focalLength : α) : α :=
  2 * atn (sensorLength / 2 / focalLength) / pi' * 180

/-- Lines 239-240 of `getEulerRotation()`:
`let betas = [-Math.sin(m[2][0])]; betas.push(Math.PI - betas[0])`.
The sine function and π are passed explicitly (instantiated with `Real.sin`
and `Real.pi`); note the source applies `Math.sin`, not `Math.asin`, to the
matrix entry. -/
def eulerBetas {α : Type} [LinearOrderedField α] [Inhabited α]
    (sin' : α → α) (pi' : α) (mat : Matrix α) : List α :=
  let b0 := -(sin' (mat.entry 2 0))
  [b0, pi' - b0]

/-- Standard 3×3 determinant (cofactor expansion along the first row); stated
from the specification to express the claimed determinant property of
`rotation3D`. -/
def det3 {α : Type} [Inhabited α] [Add α] [Mul α] [Sub α] (mat : Matrix α) : α :=
  mat.entry 0 0 * (mat.entry 1 1 * mat.entry 2 2 - mat.entry 1 2 * mat.entry 2 1) -
  mat.entry 0 1 * (mat.entry 1 0 * mat.entry 2 2 - mat.entry 1 2 * mat.entry 2 0) +
  mat.entry 0 2 * (mat.entry 1 0 * mat.entry 2 1 - mat.entry 1 1 * mat.entry 2 0)

/-- The standard matrix product, written from the specification's words
(`C[i][j] = sum over l of A[i][l] * B[l][j]`), to be compared with the
source's `Matrix.multiplication`. -/
def specProduct {α : Type} [Inhabited α] [AddCommMonoid α] [Mul α]
    (a b : Matrix α) : Matrix α :=
  ⟨(List.range a.m).map (fun i =>
    (List.range b.n).map (fun j =>
      ∑ l ∈ Finset.range a.n, a.entry i l * b.entry l j))⟩

section Helpers

lemma getD_map_range {β : Type} (f : ℕ → β) (k i : ℕ) (d : β) (h : i < k) :
    ((List.range k).map f).getD i d = f i := by
  rw [List.getD_eq_getElem?_getD, List.getElem?_map, List.getElem?_range h]
  rfl

lemma foldl_add_range {M : Type} [AddCommMonoid M] (f : ℕ → M) (k : ℕ) (init : M) :
    (List.range k).foldl (fun acc j => acc + f j) init =
      init + ∑ j ∈ Finset.range k, f j := by
  induction k generalizing init with
  | zero => simp
  | succ k ih =>
      rw [List.range_succ, List.foldl_append, ih, Finset.sum_range_succ]
      simp [add_assoc]

lemma real_default_eq_zero : (default : ℝ) = 0 := rfl

lemma range_one : List.range 1 = [0] := rfl

lemma range_two : List.range 2 = [0, 1] := rfl

lemma range_three : List.range 3 = [0, 1, 2] := rfl

end Helpers

open JSNum

/-- C1 (amended): `Matrix.inverse` returns the absent value (null) exactly
when the matrix is non-square; for every square matrix — singular or not —
it returns a (possibly meaningless) matrix, never null. -/
theorem inverse_none_iff_not_square (mat : Matrix (JSNum ℚ)) :
    mat.inverse = none ↔ mat.n ≠ mat.m := by
  by_cases h : mat.n ≠ mat.m <;> simp [Matrix.inverse, h]

/-- C1 witness for the amended theorem at the square matrix [[3]]. -/
theorem inverse_none_iff_not_square_witness :
    Matrix.inverse (⟨[[num (3 : ℚ)]]⟩ : Matrix (JSNum ℚ)) = none ↔
      (⟨[[num (3 : ℚ)]]⟩ : Matrix (JSNum ℚ)).n ≠
        (⟨[[num (3 : ℚ)]]⟩ : Matrix (JSNum ℚ)).m :=
  inverse_none_iff_not_square ⟨[[num (3 : ℚ)]]⟩

/-- C1 counterexample: the 1×1 zero matrix is square and singular (its only
column has no nonzero entry on or below the diagonal), yet `inverse` returns
the matrix `[[+Infinity]]` — a matrix of non-finite numbers — rather than
null, refuting the claim at this input. -/
theorem inverse_singular_counterexample :
    Matrix.inverse (⟨[[num (0 : ℚ)]]⟩ : Matrix (JSNum ℚ)) = some ⟨[[inf true]]⟩ ∧
    Matrix.inverse (⟨[[num (0 : ℚ)]]⟩ : Matrix (JSNum ℚ)) ≠ none := by
  constructor <;>
    simp [Matrix.inverse, Matrix.identity, Matrix.fromSize, Matrix.n, Matrix.m,
      Matrix.entry, Matrix.setEntry, Matrix.multiplyRow, Matrix.multiplyAndAdd,
      Matrix.swap, range_one]

/-- C2: the claim fails because of a pivot-search defect.  With
o1 = (0,0), o2 = (1,1) and family-0 edge directions p1 = o1 − point1 = (0,1)
and p2 = o2 − point1 = (-1,0), the directions are not parallel
(p1.x·p2.y − p1.y·p2.x = 1 ≠ 0), so the 2×2 system is invertible; but the
elimination searches the diagonal entries `old.matrix[i][i]` instead of the
column entries `old.matrix[i][col]`, finds no pivot for the matrix
[[0,1],[1,0]], divides by zero, and (after NaN-to-zero coercion in
`Vector.addition`) returns the point (0,0), which lies on no point
o2 + s·p2 = (1 − s, 1) of the second ray. -/
theorem vanishingPoint_pivot_defect :
    getVanishingPoints
        (⟨[num (0 : ℚ), num 0], [num 0, num (-1)], [num (-1), num 0]⟩ :
          Corner (JSNum ℚ))
        ⟨[num 1, num 1], [num 2, num 1], [num 1, num 0]⟩ =
      [[num 0, num 0], [num 1, num 0]] ∧
    (0 : ℚ) * 0 - 1 * (-1) ≠ 0 ∧
    ∀ s : ℚ, ¬ ((0 : ℚ) = 1 + s * (-1) ∧ (0 : ℚ) = 1 + s * 0) := by
  refine ⟨?_, by norm_num, fun s h => ?_⟩
  · simp [getVanishingPoints, Vector.subtraction, Vector.addition,
      Vector.scalarMultiplication, Corner.pointFromIndex, jsGet,
      Matrix.inverse, Matrix.identity, Matrix.fromSize, Matrix.n, Matrix.m,
      Matrix.entry, Matrix.setEntry, Matrix.multiplyRow, Matrix.multiplyAndAdd,
      Matrix.swap, Matrix.transformVector, range_one, range_two,
      List.range'_succ]
    norm_num [getVanishingPoints, Vector.subtraction, Vector.addition,
      Vector.scalarMultiplication, Corner.pointFromIndex, jsGet,
      Matrix.inverse, Matrix.identity, Matrix.fromSize, Matrix.n, Matrix.m,
      Matrix.entry, Matrix.setEntry, Matrix.multiplyRow, Matrix.multiplyAndAdd,
      Matrix.swap, Matrix.transformVector, range_one, range_two,
      List.range'_succ]
  · have h2 := h.2
    simp at h2

/-- C9 counterexample: for the conforming pair A = [[1,1]] (1×2) and
B = [[1],[1]] (2×1) — where A is not square — the code copies only
`A.matrix.length = 1` entry of B's column before transforming, so it returns
[[1]], while the standard matrix product is [[2]]. -/
theorem multiplication_nonsquare_counterexample :
    Matrix.multiplication (⟨[[(1 : ℚ), 1]]⟩ : Matrix ℚ) ⟨[[1], [1]]⟩ = ⟨[[1]]⟩ ∧
    specProduct (⟨[[(1 : ℚ), 1]]⟩ : Matrix ℚ) ⟨[[1], [1]]⟩ = ⟨[[2]]⟩ ∧
    (⟨[[(1 : ℚ)]]⟩ : Matrix ℚ) ≠ ⟨[[2]]⟩ := by
  refine ⟨?_, ?_, ?_⟩
  · simp [Matrix.multiplication, Matrix.transformVector, Matrix.jsArrayWrite,
      Matrix.entry, Matrix.m, Matrix.n, range_one, range_two]
  · norm_num [specProduct, Matrix.entry, Matrix.m, Matrix.n, range_one,
      Finset.sum_range_succ]
  · intro h
    have := congrArg Matrix.matrix h
    simp at this

/-- C9 (amended): `Matrix.multiplication` computes the standard matrix
product whenever the left matrix is square (in addition to the claimed
conformance `A.n = B.m`); the column-copying loop is bounded by the left
matrix's height, which then coincides with B's height. -/
theorem multiplication_eq_specProduct_of_square
    (a b : Matrix ℝ)
    (hwa : ∀ row ∈ a.matrix, row.length = a.n)
    (hwb : ∀ row ∈ b.matrix, row.length = b.n)
    (hsq : a.m = a.n) (hconf : b.m = a.n) :
    Matrix.multiplication a b = specProduct a b := by
  simp only [Matrix.m, Matrix.n] at hsq hconf
  simp only [Matrix.multiplication, specProduct, Matrix.m, Matrix.n,
    Matrix.mk.injEq]
  apply List.map_congr_left
  intro j hj
  rw [List.mem_range] at hj
  apply List.map_congr_left
  intro i hi
  rw [List.mem_range] at hi
  simp only [Matrix.transformVector, Matrix.m, Matrix.n]
  rw [getD_map_range _ _ _ _ hj]
  have hlen : (Matrix.jsArrayWrite ((b.matrix.headD []).length) (a.matrix.length)
      (fun k => b.entry k i)).length =
      max (b.matrix.headD []).length a.matrix.length := by
    simp [Matrix.jsArrayWrite]
  rw [hlen]
  have hmin : min (max (b.matrix.headD []).length a.matrix.length)
      ((a.matrix.headD []).length) = (a.matrix.headD []).length := by omega
  rw [hmin, foldl_add_range, zero_add]
  apply Finset.sum_congr rfl
  intro l hl
  rw [Finset.mem_range] at hl
  have h1 : l < max (b.matrix.headD []).length a.matrix.length := by omega
  have h2 : l < a.matrix.length := by omega
  unfold Matrix.jsArrayWrite
  rw [getD_map_range _ _ _ _ h1, if_pos h2]

/-- C9 witness for the amended theorem at the concrete square pair
A = [[1,2],[3,4]], B = [[5],[6]]. -/
theorem multiplication_eq_specProduct_of_square_witness :
    Matrix.multiplication (⟨[[(1 : ℝ), 2], [3, 4]]⟩ : Matrix ℝ) ⟨[[5], [6]]⟩ =
      specProduct (⟨[[(1 : ℝ), 2], [3, 4]]⟩ : Matrix ℝ) ⟨[[5], [6]]⟩ :=
  multiplication_eq_specProduct_of_square _ _
    (by intro row hr; fin_cases hr <;> simp [Matrix.n])
    (by intro row hr; fin_cases hr <;> simp [Matrix.n])
    rfl rfl

/-- C10: `transformVector` returns a vector of length `m` whose `i`-th
component is the sum of `M[i][j] * v[j]` over `j < min(v.length, M.n)`:
shorter vectors are in effect zero-extended, longer vectors are silently
truncated, and no length mismatch ever fails. -/
theorem transformVector_spec (mat : Matrix ℝ) (v : List ℝ)
    (hw : ∀ row ∈ mat.matrix, row.length = mat.n) :
    (mat.transformVector v).length = mat.m ∧
    ∀ i < mat.m, (mat.transformVector v).getD i 0 =
      ∑ j ∈ Finset.range (min v.length mat.n), mat.entry i j * v.getD j 0 := by
  constructor
  · simp [Matrix.transformVector]
  · intro i hi
    unfold Matrix.transformVector
    rw [getD_map_range _ _ _ _ hi, foldl_add_range, zero_add]
    apply Finset.sum_congr rfl
    intro j _
    rw [real_default_eq_zero]

/-- Evaluation of `getFocalLength` on finite vanishing points: the radicand is
computed exactly, `Math.sqrt` of a negative radicand is NaN, and NaN
propagates through the division and multiplication. -/
lemma focal_eval (x0 y0 x1 y1 sL : ℝ) :
    getFocalLength Real.sqrt [[num x0, num y0], [num x1, num y1]] (num sL) =
      if -(x0 * x1) - y0 * y1 < 0 then JSNum.nan
      else num (Real.sqrt (-(x0 * x1) - y0 * y1) / 2 * sL) := by
  rcases lt_or_le (-(x0 * x1) - y0 * y1) 0 with h | h
  · simp [getFocalLength, jsGet, h]
  · simp [getFocalLength, jsGet, not_lt.2 h, h]

/-- C3 (amended): the focal-length estimator returns
`sqrt(-(x0·x1 + y0·y1)) / 2 · sensorLength` when the radicand is nonnegative,
and NaN (an undefined, non-real result) — not 0 — when the radicand is
negative; there is no `max(0, ...)` clamp in the code. -/
theorem getFocalLength_formula (x0 y0 x1 y1 sL : ℝ) :
    getFocalLength Real.sqrt [[num x0, num y0], [num x1, num y1]] (num sL) =
      if -(x0 * x1) - y0 * y1 < 0 then JSNum.nan
      else num (Real.sqrt (-(x0 * x1) - y0 * y1) / 2 * sL) :=
  focal_eval x0 y0 x1 y1 sL

/-- C3 witness for the amended theorem at vanishing points (1,0), (1,0) and
sensor length 36. -/
theorem getFocalLength_formula_witness :
    getFocalLength Real.sqrt [[num (1 : ℝ), num 0], [num 1, num 0]] (num 36) =
      if -((1 : ℝ) * 1) - 0 * 0 < 0 then JSNum.nan
      else num (Real.sqrt (-((1 : ℝ) * 1) - 0 * 0) / 2 * 36) :=
  getFocalLength_formula 1 0 1 0 36

/-- C3 counterexample: for the vanishing points (1,0) and (1,0) the radicand
is −1 < 0; the claim says the result is the real number 0, but the code
returns NaN. -/
theorem getFocalLength_negative_radicand_counterexample :
    getFocalLength Real.sqrt [[num (1 : ℝ), num 0], [num 1, num 0]] (num 36) =
      JSNum.nan ∧
    (JSNum.nan : JSNum ℝ) ≠ num 0 := by
  constructor
  · rw [focal_eval]
    norm_num
  · exact nan_ne_num 0

/-- C5 (amended): `calculate` includes the full pose (worldTransform,
location, eulerRotation) exactly when the focal length is **truthy** — a
defined value different from 0 — and the two axis letters differ.  A focal
length that is real-valued but equal to 0 is falsy, so the pose is withheld,
contrary to the claim. -/
theorem poseGate_truthy_iff (x0 y0 x1 y1 sL : ℝ) (a1 a2 : List Char) :
    poseGate (getFocalLength Real.sqrt [[num x0, num y0], [num x1, num y1]]
        (num sL)) a1 a2 = true ↔
      (0 ≤ -(x0 * x1) - y0 * y1 ∧
        Real.sqrt (-(x0 * x1) - y0 * y1) / 2 * sL ≠ 0 ∧
        a1.get? 1 ≠ a2.get? 1) := by
  rw [focal_eval]
  rcases lt_or_le (-(x0 * x1) - y0 * y1) 0 with h | h
  · simp [poseGate, h, h.not_le]
  · simp [poseGate, not_lt.2 h, h, JSNum.truthy, and_assoc]

/-- C5 witness for the amended theorem at vanishing points (1,1), (1,−1),
sensor length 36 and axis labels "+x", "+y". -/
theorem poseGate_truthy_iff_witness :
    poseGate (getFocalLength Real.sqrt [[num (1 : ℝ), num 1], [num 1, num (-1)]]
        (num 36)) ['+', 'x'] ['+', 'y'] = true ↔
      (0 ≤ -((1 : ℝ) * 1) - 1 * (-1) ∧
        Real.sqrt (-((1 : ℝ) * 1) - 1 * (-1)) / 2 * 36 ≠ 0 ∧
        (['+', 'x'] : List Char).get? 1 ≠ (['+', 'y'] : List Char).get? 1) :=
  poseGate_truthy_iff 1 1 1 (-1) 36 ['+', 'x'] ['+', 'y']

/-- C5 counterexample: the vanishing points (1,1) and (1,−1) give radicand 0,
hence the defined real focal length 0; the axis letters differ, yet the pose
guard is false (0 is falsy in JS), refuting the claimed if-and-only-if. -/
theorem poseGate_zero_focal_counterexample :
    getFocalLength Real.sqrt [[num (1 : ℝ), num 1], [num 1, num (-1)]] (num 36) =
      num 0 ∧
    poseGate (getFocalLength Real.sqrt [[num (1 : ℝ), num 1], [num 1, num (-1)]]
        (num 36)) ['+', 'x'] ['+', 'y'] = false ∧
    (['+', 'x'] : List Char).get? 1 ≠ (['+', 'y'] : List Char).get? 1 := by
  have hf : getFocalLength Real.sqrt
      [[num (1 : ℝ), num 1], [num 1, num (-1)]] (num 36) = num 0 := by
    rw [focal_eval]
    norm_num
  refine ⟨hf, ?_, by decide⟩
  rw [hf]
  simp [poseGate]

/-- C4: the claim states `beta0 = -asin(M[2][0])`, but the source computes
`-Math.sin(m[2][0])` (lines 239-240).  At a matrix with M[2][0] = 1 the code
produces −sin 1 while the claimed value is −arcsin 1 = −π/2, and the two
differ; the spec itself flags the use of `sin` in place of the inverse sine
as a defect, so the code, not the claim, is wrong. -/
theorem eulerBetas_sin_defect :
    eulerBetas Real.sin Real.pi (⟨[[0, 0, 0], [0, 0, 0], [1, 0, 0]]⟩ : Matrix ℝ) =
      [-Real.sin 1, Real.pi - -Real.sin 1] ∧
    -Real.sin 1 ≠ -Real.arcsin 1 := by
  constructor
  · rfl
  · rw [Real.arcsin_one]
    intro h
    have h1 : Real.sin 1 = Real.pi / 2 := by
      have := neg_injective h
      linarith [this]
    have h2 : Real.sin 1 ≤ 1 := Real.sin_le_one 1
    have h3 : (3.141592 : ℝ) < Real.pi := Real.pi_gt_d6
    rw [h1] at h2
    linarith

/-- C7 (amended): the field-of-view value stored in the computed result is
the claimed angle `2·atan(sensorLength/(2f))` converted to **degrees**
(multiplied by 180/π), not the radian value itself. -/
theorem fovValue_degrees (sL f : ℝ) (hf : 0 < f) :
    fovValue Real.arctan Real.pi sL f =
      2 * Real.arctan (sL / (2 * f)) / Real.pi * 180 := by
  simp only [fovValue, div_div]

/-- C7 witness for the amended theorem at sensorLength 2, focal length 1. -/
theorem fovValue_degrees_witness :
    (0 : ℝ) < 1 ∧
    fovValue Real.arctan Real.pi 2 1 =
      2 * Real.arctan ((2 : ℝ) / (2 * 1)) / Real.pi * 180 :=
  ⟨one_pos, fovValue_degrees 2 1 one_pos⟩

/-- C7 counterexample: at sensorLength 2 and focal length 1 the computed
field of view is 90 (degrees), whereas the radian value of the claimed
formula is `2·atan(1) = π/2`, and `π/2 ≠ 90`. -/
theorem fovValue_counterexample :
    fovValue Real.arctan Real.pi 2 1 = 90 ∧
    2 * Real.arctan ((2 : ℝ) / (2 * 1)) = Real.pi / 2 ∧
    Real.pi / 2 ≠ 90 := by
  have harg : (2 : ℝ) / 2 / 1 = 1 := by norm_num
  have harg2 : (2 : ℝ) / (2 * 1) = 1 := by norm_num
  refine ⟨?_, ?_, ?_⟩
  · rw [fovValue, harg, Real.arctan_one]
    field_simp
    ring
  · rw [harg2, Real.arctan_one]
    ring
  · intro h
    have h3 : (3.141592 : ℝ) < Real.pi := Real.pi_gt_d6
    have h4 : Real.pi < 3.15 := Real.pi_lt_d2
    linarith

/-- C8: for every axis in {0,1,2} and every angle, the rotation matrix built
by `rotation3D` is orthonormal: `M · Mᵀ` (computed with the source's own
`multiplication` and `transpose`) is the identity, and its determinant is 1. -/
theorem rotation3D_orthonormal (axis : ℕ) (θ : ℝ) (h : axis < 3) :
    Matrix.multiplication (Matrix.rotation3D Real.sin Real.cos axis θ)
        ((Matrix.rotation3D Real.sin Real.cos axis θ).transpose) =
      Matrix.identity 3 ∧
    det3 (Matrix.rotation3D Real.sin Real.cos axis θ) = 1 := by
  have hsc := Real.sin_sq_add_cos_sq θ
  have hsc' : Real.cos θ ^ 2 + Real.sin θ ^ 2 = 1 := by linarith
  interval_cases axis <;>
    refine ⟨?_, ?_⟩ <;>
      simp [Matrix.multiplication, Matrix.transpose, Matrix.transformVector,
        Matrix.jsArrayWrite, Matrix.entry, Matrix.identity, Matrix.fromSize,
        Matrix.setEntry, Matrix.m, Matrix.n, Matrix.rotation3D, det3,
        range_three] <;>
      ring_nf <;>
      simp [hsc, hsc']

/-- C8 witness at axis 0 and angle 0. -/
theorem rotation3D_orthonormal_witness :
    Matrix.multiplication (Matrix.rotation3D Real.sin Real.cos 0 0)
        ((Matrix.rotation3D Real.sin Real.cos 0 0).transpose) =
      Matrix.identity 3 ∧
    det3 (Matrix.rotation3D Real.sin Real.cos 0 0) = 1 :=
  rotation3D_orthonormal 0 0 (by norm_num)

/-- C6 (amended): for corners whose family-0 edge-direction vectors are the
parallel horizontals p1 = (a, 0) and p2 = (b, 0) (a, b ≠ 0), the solver does
not fail and returns no absent value: the singular elimination produces NaN
coefficients, and the NaN-to-zero coercion in `Vector.addition` makes the
returned family-0 "vanishing point" exactly the finite point o1 (the first
corner's anchor); downstream computation is not suppressed. -/
theorem parallel_horizontal_vanishing_point
    (o1x o1y o2x o2y a b : ℚ) (ha : a ≠ 0) (hb : b ≠ 0)
    (q1 q2 : List (JSNum ℚ)) :
    (getVanishingPoints
        ⟨[num o1x, num o1y], [num (o1x - a), num o1y], q1⟩
        ⟨[num o2x, num o2y], [num (o2x - b), num o2y], q2⟩).getD 0 [] =
      [num o1x, num o1y] := by
  simp [getVanishingPoints, Vector.subtraction, Vector.addition,
      Vector.scalarMultiplication, Corner.pointFromIndex, jsGet,
      Matrix.inverse, Matrix.identity, Matrix.fromSize, Matrix.n, Matrix.m,
      Matrix.entry, Matrix.setEntry, Matrix.multiplyRow, Matrix.multiplyAndAdd,
      Matrix.swap, Matrix.transformVector, range_one, range_two,
      List.range'_succ, ha, hb]

/-- C6 witness for the amended theorem at o1 = (−1,0), o2 = (1,1), a = 1,
b = 3. -/
theorem parallel_horizontal_vanishing_point_witness :
    (1 : ℚ) ≠ 0 ∧ (3 : ℚ) ≠ 0 ∧
    (getVanishingPoints
        (⟨[num (-1 : ℚ), num 0], [num (-1 - 1), num 0], [num (-3), num 0]⟩ :
          Corner (JSNum ℚ))
        ⟨[num 1, num 1], [num (1 - 3), num 1], [num 1, num 2]⟩).getD 0 [] =
      [num (-1), num 0] :=
  ⟨one_ne_zero, by norm_num,
    parallel_horizontal_vanishing_point (-1) 0 1 1 1 3 one_ne_zero (by norm_num)
      [num (-3), num 0] [num 1, num 2]⟩

/-- C6 counterexample: with family-0 directions p1 = (1,0) and p2 = (3,0)
parallel (cross product 1·0 − 0·3 = 0), the solver returns the finite pair
[(−1,0), (1,0)] — not an absent value — and the downstream pipeline does not
withhold its output: the focal length computed from these points is the
truthy value 18, so the pose guard passes and the full pose is produced. -/
theorem parallel_edges_counterexample :
    getVanishingPoints
        (⟨[num (-1 : ℚ), num 0], [num (-2), num 0], [num (-3), num 0]⟩ :
          Corner (JSNum ℚ))
        ⟨[num 1, num 1], [num (-2), num 1], [num 1, num 2]⟩ =
      [[num (-1), num 0], [num 1, num 0]] ∧
    (1 : ℚ) * 0 - 0 * 3 = 0 ∧
    getFocalLength Real.sqrt [[num (-1 : ℝ), num 0], [num 1, num 0]] (num 36) =
      num 18 ∧
    poseGate (getFocalLength Real.sqrt [[num (-1 : ℝ), num 0], [num 1, num 0]]
        (num 36)) ['+', 'x'] ['+', 'y'] = true := by
  have hf : getFocalLength Real.sqrt [[num (-1 : ℝ), num 0], [num 1, num 0]]
      (num 36) = num 18 := by
    rw [focal_eval]
    norm_num [Real.sqrt_one]
  refine ⟨?_, by norm_num, hf, ?_⟩
  · simp [getVanishingPoints, Vector.subtraction, Vector.addition,
      Vector.scalarMultiplication, Corner.pointFromIndex, jsGet,
      Matrix.inverse, Matrix.identity, Matrix.fromSize, Matrix.n, Matrix.m,
      Matrix.entry, Matrix.setEntry, Matrix.multiplyRow, Matrix.multiplyAndAdd,
      Matrix.swap, Matrix.transformVector, range_one, range_two,
      List.range'_succ]
    norm_num [getVanishingPoints, Vector.subtraction, Vector.addition,
      Vector.scalarMultiplication, Corner.pointFromIndex, jsGet,
      Matrix.inverse, Matrix.identity, Matrix.fromSize, Matrix.n, Matrix.m,
      Matrix.entry, Matrix.setEntry, Matrix.multiplyRow, Matrix.multiplyAndAdd,
      Matrix.swap, Matrix.transformVector, range_one, range_two,
      List.range'_succ]
  · rw [hf]
    simp [poseGate]

/-- C10 witness at M = [[1,2],[3,4]] (2×2) and the shorter vector v = [5]. -/
theorem transformVector_spec_witness :
    (∀ row ∈ (⟨[[(1 : ℝ), 2], [3, 4]]⟩ : Matrix ℝ).matrix,
      row.length = (⟨[[(1 : ℝ), 2], [3, 4]]⟩ : Matrix ℝ).n) ∧
    ((⟨[[(1 : ℝ), 2], [3, 4]]⟩ : Matrix ℝ).transformVector [5]).length =
      (⟨[[(1 : ℝ), 2], [3, 4]]⟩ : Matrix ℝ).m ∧
    ∀ i < (⟨[[(1 : ℝ), 2], [3, 4]]⟩ : Matrix ℝ).m,
      ((⟨[[(1 : ℝ), 2], [3, 4]]⟩ : Matrix ℝ).transformVector [5]).getD i 0 =
        ∑ j ∈ Finset.range (min ([(5 : ℝ)].length) (⟨[[(1 : ℝ), 2], [3, 4]]⟩ : Matrix ℝ).n),
          (⟨[[(1 : ℝ), 2], [3, 4]]⟩ : Matrix ℝ).entry i j * [(5 : ℝ)].getD j 0 := by
  have hw : ∀ row ∈ (⟨[[(1 : ℝ), 2], [3, 4]]⟩ : Matrix ℝ).matrix,
      row.length = (⟨[[(1 : ℝ), 2], [3, 4]]⟩ : Matrix ℝ).n := by
    intro row hr
    fin_cases hr <;> simp [Matrix.n]
  exact ⟨hw, transformVector_spec _ [5] hw⟩

end CamAlign
